import Mathlib

/-!
# Verification of the Alpha Capital portfolio risk engine

Shallow embedding of src/portfolio_analysis.py and proofs about it.

Conventions:
* Python floats are modelled as exact numbers: `ℚ` where the computation is
  rational arithmetic (percentiles, covariance, the optimizer fallback,
  beta), `ℝ` where square roots / exponentials appear (portfolio metrics,
  Monte Carlo).  A small `NpFloat` type models numpy's non-finite values
  (inf / -inf / nan) where a claim is about division by zero.
* numpy's global random number generator is modelled by an explicit stream
  of draws passed as a function argument: the k-th value of the stream is
  the k-th value the generator returns.  A standard-normal draw stream `z`
  turns `np.random.normal(loc, scale, n)` into `fun k => loc + scale * z k`.
* Fallible numpy calls (`np.percentile` raising ValueError on a percentile
  outside [0,100]) are modelled with `Option`.
-/

namespace PortfolioAnalysis

/-! ## Configuration constants (source lines 38-49) -/

/-- Source line 39: `AUM = 500_000_000` (rational copy, used by `calculate_var`
and `calculate_beta`). -/
def AUM_Q : ℚ := 500000000

/-- Source line 39: `AUM = 500_000_000` (real copy, used by `monte_carlo`). -/
noncomputable def AUM_R : ℝ := 500000000

/-- Source line 40: `RISK_FREE = 0.0525`. -/
noncomputable def RISK_FREE_R : ℝ := 0.0525

/-- Source line 43: `TRADE_DAYS = 252`. -/
def TRADE_DAYS : ℕ := 252

/-- Source lines 48-49: the ten-element ticker universe. -/
def TICKERS : List String :=
  ["AAPL", "MSFT", "GOOGL", "AMZN", "NVDA", "JPM", "GS", "BAC", "XOM", "JNJ"]

/-- Number of assets, `n = len(TICKERS)` as used by `optimize_portfolio`. -/
def nAssets : ℕ := TICKERS.length

theorem nAssets_eq_ten : nAssets = 10 := rfl

instance : NeZero nAssets := ⟨by decide⟩

/-! ## Rational-arithmetic primitives shared by the risk metrics -/

/-- One row of `returns_df @ weights`: the dot product of the weight vector
with one period's return row. -/
def dotQ {N : ℕ} (w : Fin N → ℚ) (r : Fin N → ℚ) : ℚ := ∑ i, w i * r i

/-- pandas `Series.mean()`: sum divided by length. -/
def listMean (xs : List ℚ) : ℚ := xs.sum / xs.length

/-- Ascending sort, as `np.percentile` performs internally.  The ascending
rearrangement of a list is unique for a linear order, so any correct sort
models numpy's. -/
def sortedAsc (xs : List ℚ) : List ℚ := List.insertionSort (fun a b => a ≤ b) xs

/-- Model of `np.percentile(xs, q)` with the default linear-interpolation method:
with `m = len(xs)` and `h = (m-1) * q / 100`, interpolate between the
order statistics at positions `floor h` and `ceil h`. -/
def npPercentile (xs : List ℚ) (q : ℚ) : ℚ :=
  let s := sortedAsc xs
  let h : ℚ := ((xs.length - 1 : ℕ) : ℚ) * q / 100
  s.getD (Int.floor h).toNat 0 +
    (h - Int.floor h) * (s.getD (Int.ceil h).toNat 0 - s.getD (Int.floor h).toNat 0)

/-! ## `calculate_var` (source lines 117-135)

The function computes, for `port_dollar = (returns_df @ weights) * AUM`:
historical VaR `-np.percentile(port_dollar, (1-confidence)*100)` (line 123),
the same percentile again as `threshold` (line 132), and CVaR
`-port_dollar[port_dollar <= threshold].mean()` (line 133).
`np.percentile` raises a ValueError when the requested percentile lies
outside [0,100]; that failure is modelled by `none`.  The parametric VaR
(lines 126-129, `scipy.stats.norm.ppf`) is transcendental and is referenced
by no claim, so it is not part of the extracted pair: the modelled result is
`(var_hist, cvar)`. -/

/-- Source lines 119-120: `port_dollar = (returns_df @ weights) * AUM`. -/
def port_dollar {N : ℕ} (w : Fin N → ℚ) (R : List (Fin N → ℚ)) : List ℚ :=
  R.map (fun r => dotQ w r * AUM_Q)

/-- The empirical percentile threshold of source lines 123 and 132 (one and
the same expression in the source). -/
def varThreshold {N : ℕ} (w : Fin N → ℚ) (R : List (Fin N → ℚ)) (conf : ℚ) : ℚ :=
  npPercentile (port_dollar w R) ((1 - conf) * 100)

/-- The tail `port_dollar[port_dollar <= threshold]` of source line 133. -/
def cvarTail {N : ℕ} (w : Fin N → ℚ) (R : List (Fin N → ℚ)) (conf : ℚ) : List ℚ :=
  (port_dollar w R).filter (fun x => x ≤ varThreshold w R conf)

/-- Embedding of `calculate_var` (source lines 117-135), restricted to its historical-VaR
and CVaR outputs; `none` models the ValueError numpy raises when
`(1-confidence)*100` falls outside [0,100]. -/
def calculate_varE {N : ℕ} (w : Fin N → ℚ) (R : List (Fin N → ℚ)) (conf : ℚ) :
    Option (ℚ × ℚ) :=
  let q := (1 - conf) * 100
  if q < 0 ∨ 100 < q then none
  else some (-(varThreshold w R conf), -(listMean (cvarTail w R conf)))

/-! ## `calculate_beta` (source lines 137-143) -/

/-- Row mean `returns_df.mean(axis=1)` for one row: the mean across the `N` assets. -/
def rowMeanQ {N : ℕ} (r : Fin N → ℚ) : ℚ := (∑ i, r i) / N

/-- Source lines 139-140: `bm_returns = returns_df.mean(axis=1) * 0.85 +
np.random.normal(0, 0.003, len(returns_df))`.  The `noise` stream holds the
values drawn from numpy's global generator: `noise t` is the draw added to
period `t`. -/
def bmReturns {N : ℕ} (R : List (Fin N → ℚ)) (noise : ℕ → ℚ) : List ℚ :=
  R.enum.map (fun p => rowMeanQ p.2 * (85 / 100) + noise p.1)

/-- One entry of `np.cov(xs, ys)` (two-pass sample covariance, ddof = 1). -/
def sampleCov2 (xs ys : List ℚ) : ℚ :=
  (List.zipWith (fun x y => (x - listMean xs) * (y - listMean ys)) xs ys).sum /
    ((xs.length : ℚ) - 1)

/-- Embedding of `calculate_beta` (source lines 137-143): `cov_mat[0,1] / cov_mat[1,1]`
for the 2x2 sample covariance of the portfolio returns and the simulated
benchmark.  The global-generator draws appear as the explicit `noise`
stream. -/
def calculate_betaQ {N : ℕ} (w : Fin N → ℚ) (R : List (Fin N → ℚ)) (noise : ℕ → ℚ) : ℚ :=
  let port := R.map (dotQ w)
  let bm := bmReturns R noise
  sampleCov2 port bm / sampleCov2 bm bm

/-! ## `optimize_portfolio` (source lines 148-179)

The scipy branch (lines 150-169) calls the external SLSQP solver and returns
`result.x if result.success else w0`; the solver's output is modelled as a
`SolveResult` value handed to the surrounding code.  The ImportError branch
(lines 171-179) is fully embedded: regularized annualized covariance,
matrix inverse, minimum-variance weights, clip to [0.02, 0.25], and
renormalization. -/

/-- The fields of the scipy `OptimizeResult` that line 169 reads. -/
structure SolveResult (n : ℕ) where
  success : Bool
  x : Fin n → ℚ

/-- Line 164: `w0 = np.ones(n) / n`, the equal-weight start vector. -/
def w0 : Fin nAssets → ℚ := fun _ => 1 / nAssets

/-- Lines 166-169: run the solver, then `return result.x if result.success
else w0`.  Note the returned value is a bare weight vector: no convergence
flag survives into the result. -/
def optimize_scipy (res : SolveResult nAssets) : Fin nAssets → ℚ :=
  if res.success then res.x else w0

/-- Column mean of the return matrix (`returns_df.mean()` per asset). -/
def colMeanQ {N : ℕ} (R : List (Fin N → ℚ)) (i : Fin N) : ℚ :=
  (R.map (fun r => r i)).sum / R.length

/-- Sample covariance `returns_df.cov()`: the two-pass estimator (ddof = 1). -/
def sampleCovM {N : ℕ} (R : List (Fin N → ℚ)) : Matrix (Fin N) (Fin N) ℚ :=
  Matrix.of fun i j =>
    (R.map (fun r => (r i - colMeanQ R i) * (r j - colMeanQ R j))).sum /
      ((R.length : ℚ) - 1)

/-- Model of `np.linalg.inv`, written through the adjugate; on an invertible matrix
this is the unique two-sided inverse that numpy computes. -/
def npInv {N : ℕ} (A : Matrix (Fin N) (Fin N) ℚ) : Matrix (Fin N) (Fin N) ℚ :=
  A.det⁻¹ • A.adjugate

/-- Line 174 and the regularization of line 176:
`cov_mat = returns_df.cov().values * TRADE_DAYS`, then `cov_mat + np.eye(n) * 1e-8`. -/
def regCov (R : List (Fin nAssets → ℚ)) : Matrix (Fin nAssets) (Fin nAssets) ℚ :=
  (TRADE_DAYS : ℚ) • sampleCovM R + (1 / 100000000 : ℚ) • (1 : Matrix (Fin nAssets) (Fin nAssets) ℚ)

/-- Line 177: `w = inv_cov @ ones / (ones @ inv_cov @ ones)` as a function of
the already-inverted matrix. -/
def minvarRaw {N : ℕ} (A : Matrix (Fin N) (Fin N) ℚ) : Fin N → ℚ :=
  fun i => (∑ j, npInv A i j) / (∑ k, ∑ j, npInv A k j)

/-- Line 178: `np.clip(x, 0.02, 0.25)` on one component. -/
def clipBounds (x : ℚ) : ℚ := min (max x (1 / 50)) (1 / 4)

/-- Lines 178-179: clip every component into [0.02, 0.25], then divide by the
sum of the clipped vector. -/
def clipRenorm {N : ℕ} (w : Fin N → ℚ) : Fin N → ℚ :=
  fun i => clipBounds (w i) / (∑ j, clipBounds (w j))

/-- The ImportError branch of `optimize_portfolio` (source lines 171-179). -/
def optimize_fallback (R : List (Fin nAssets → ℚ)) : Fin nAssets → ℚ :=
  clipRenorm (minvarRaw (regCov R))

/-- Counterexample data for the fallback-path feasibility: period 1 of a
two-period return series in which only the first asset moves (up 100%). -/
def rstarUp : Fin nAssets → ℚ := fun i => if i = 0 then 1 else 0

/-- Counterexample data, period 2: the first asset moves down 100%. -/
def rstarDown : Fin nAssets → ℚ := fun i => if i = 0 then -1 else 0

/-- The two-period return series of the fallback counterexample: asset 0 has
sample variance 2, the nine other assets have zero variance and zero
covariance with everything. -/
def Rstar : List (Fin nAssets → ℚ) := [rstarUp, rstarDown]

/-- The diagonal of the regularized annualized covariance of `Rstar`:
`252 * 2 + 1e-8` for asset 0 and the bare regularizer `1e-8` elsewhere. -/
def dstar : Fin nAssets → ℚ :=
  fun i => if i = 0 then 50400000001 / 100000000 else 1 / 100000000

/-! ## Real-valued embedding for `portfolio_metrics` and `monte_carlo`

These two functions involve square roots and exponentials, so they are
modelled over `ℝ`.  numpy's behaviour on a zero denominator (inf / -inf /
nan, with warnings suppressed by line 33 of the source) is captured by
`NpFloat` and `npDiv`. -/

/-- A numpy scalar: an ordinary (finite) value or one of the non-finite
sentinels. -/
inductive NpFloat where
  | num (x : ℝ)
  | posInf
  | negInf
  | nan

/-- numpy division of finite scalars: finite quotient when the denominator is
nonzero; `inf`, `-inf` or `nan` (by the numerator's sign) when it is zero. -/
noncomputable def npDiv (a b : ℝ) : NpFloat :=
  if b = 0 then
    if a = 0 then NpFloat.nan else if 0 < a then NpFloat.posInf else NpFloat.negInf
  else NpFloat.num (a / b)

/-- Source line 111: `returns_df @ weights` over `ℝ`. -/
noncomputable def port_returnsR {N : ℕ} (w : Fin N → ℝ) (R : List (Fin N → ℝ)) : List ℝ :=
  R.map (fun r => ∑ i, w i * r i)

/-- pandas `Series.mean()` over `ℝ`. -/
noncomputable def meanR (xs : List ℝ) : ℝ := xs.sum / xs.length

/-- pandas `Series.std()`: square root of the two-pass sample variance
(ddof = 1). -/
noncomputable def stdR (xs : List ℝ) : ℝ :=
  Real.sqrt ((xs.map (fun x => (x - meanR xs) ^ 2)).sum / ((xs.length : ℝ) - 1))

/-- Embedding of `portfolio_metrics` (source lines 109-115): annualized return, annualized
volatility, and the Sharpe ratio as a numpy scalar (so that a zero
volatility produces a non-finite sentinel, not an exception). -/
noncomputable def portfolio_metricsR {N : ℕ} (w : Fin N → ℝ) (R : List (Fin N → ℝ)) :
    ℝ × ℝ × NpFloat :=
  let pr := port_returnsR w R
  let ann_return := meanR pr * (TRADE_DAYS : ℝ)
  let ann_vol := stdR pr * Real.sqrt (TRADE_DAYS : ℝ)
  (ann_return, ann_vol, npDiv (ann_return - RISK_FREE_R) ann_vol)

/-- Embedding of `monte_carlo` (source lines 184-195).  `aum` is the module constant `AUM`
the source reads (instantiated with `AUM_R` for the configured program), and
`z` is the stream of standard-normal draws behind
`np.random.normal(loc, scale, n_sim)`: draw `k` is `loc + scale * z k`. -/
noncomputable def monte_carloR {N : ℕ} (aum : ℝ) (w : Fin N → ℝ) (R : List (Fin N → ℝ))
    (n_sim : ℕ) (horizon : ℝ) (z : Fin n_sim → ℝ) : List ℝ :=
  let mu := meanR (port_returnsR w R)
  let sig := stdR (port_returnsR w R)
  List.ofFn (fun k =>
    aum * Real.exp ((mu - 0.5 * sig ^ 2) * horizon + sig * Real.sqrt horizon * z k))

/-! ## Specification-side definitions

Written from the spec's words (sections 4.1 and 4.3), to be compared with
the code-side embedding in the refinement claims C3 and C7. -/

/-- Spec 4.1: portfolio period return = weights dot returnRow. -/
noncomputable def specPortReturn {N : ℕ} (w : Fin N → ℝ) (r : Fin N → ℝ) : ℝ :=
  ∑ i, w i * r i

/-- Spec: the mean of a sample. -/
noncomputable def specMean (xs : List ℝ) : ℝ := xs.sum / xs.length

/-- Spec: the sample variance (unbiased, divisor T - 1). -/
noncomputable def specSampleVariance (xs : List ℝ) : ℝ :=
  ((xs.map (fun x => (x - specMean xs) ^ 2)).sum) / ((xs.length : ℝ) - 1)

/-- Spec: the sample standard deviation. -/
noncomputable def specSampleStd (xs : List ℝ) : ℝ := Real.sqrt (specSampleVariance xs)

/-- Spec 4.1: annualize the mean by the periods-per-year factor (252). -/
noncomputable def specAnnualizedReturn {N : ℕ} (w : Fin N → ℝ) (R : List (Fin N → ℝ)) : ℝ :=
  specMean (R.map (specPortReturn w)) * 252

/-- Spec 4.1: annualize the volatility by the square root of the same factor. -/
noncomputable def specAnnualizedVol {N : ℕ} (w : Fin N → ℝ) (R : List (Fin N → ℝ)) : ℝ :=
  specSampleStd (R.map (specPortReturn w)) * Real.sqrt 252

/-- Spec 4.3: sample mean of the portfolio's per-period returns. -/
noncomputable def specMu {N : ℕ} (w : Fin N → ℝ) (R : List (Fin N → ℝ)) : ℝ :=
  specMean (R.map (specPortReturn w))

/-- Spec 4.3: sample standard deviation of the portfolio's per-period
returns. -/
noncomputable def specSigma {N : ℕ} (w : Fin N → ℝ) (R : List (Fin N → ℝ)) : ℝ :=
  specSampleStd (R.map (specPortReturn w))

/-- Spec 4.3: the log-return drawn over the horizon has mean
`(mu - 0.5 sigma^2) * horizon`. -/
noncomputable def specLogMean {N : ℕ} (w : Fin N → ℝ) (R : List (Fin N → ℝ)) (horizon : ℝ) : ℝ :=
  (specMu w R - 0.5 * specSigma w R ^ 2) * horizon

/-- Spec 4.3: the log-return drawn over the horizon has standard deviation
`sigma * sqrt horizon`. -/
noncomputable def specLogStd {N : ℕ} (w : Fin N → ℝ) (R : List (Fin N → ℝ)) (horizon : ℝ) : ℝ :=
  specSigma w R * Real.sqrt horizon

/-! ## Helper lemmas about the percentile and the mean -/

theorem sortedAsc_perm (xs : List ℚ) : (sortedAsc xs).Perm xs :=
  List.perm_insertionSort _ xs

theorem sortedAsc_sorted (xs : List ℚ) :
    List.Sorted (fun a b => a ≤ b) (sortedAsc xs) :=
  List.sorted_insertionSort _ xs

theorem interp_ge {s : List ℚ} {c : ℚ} {lo hi : ℕ} (hlo : lo < s.length)
    (hhi : hi < s.length) (hc : ∀ x ∈ s, c ≤ x) {t : ℚ} (ht0 : 0 ≤ t) (ht1 : t ≤ 1) :
    c ≤ s.getD lo 0 + t * (s.getD hi 0 - s.getD lo 0) := by
  rw [List.getD_eq_getElem s 0 hlo, List.getD_eq_getElem s 0 hhi]
  have ha : c ≤ s[lo] := hc _ (List.getElem_mem hlo)
  have hb : c ≤ s[hi] := hc _ (List.getElem_mem hhi)
  nlinarith [mul_nonneg ht0 (sub_nonneg.mpr hb),
    mul_nonneg (sub_nonneg.mpr ht1) (sub_nonneg.mpr ha)]

theorem le_npPercentile_of_forall_le {xs : List ℚ} {q c : ℚ} (hne : xs ≠ [])
    (hq0 : 0 ≤ q) (hq1 : q ≤ 100) (hc : ∀ x ∈ xs, c ≤ x) :
    c ≤ npPercentile xs q := by
  have hm : 0 < xs.length := List.length_pos.mpr hne
  have hlen : (sortedAsc xs).length = xs.length := (sortedAsc_perm xs).length_eq
  have hcs : ∀ x ∈ sortedAsc xs, c ≤ x := fun x hx =>
    hc x ((sortedAsc_perm xs).mem_iff.mp hx)
  simp only [npPercentile]
  set h : ℚ := ((xs.length - 1 : ℕ) : ℚ) * q / 100 with hh
  have hM : h ≤ ((xs.length - 1 : ℕ) : ℚ) := by
    rw [hh, div_le_iff₀ (by norm_num : (0 : ℚ) < 100)]
    have := mul_le_mul_of_nonneg_left hq1
      (Nat.cast_nonneg (α := ℚ) (xs.length - 1))
    linarith
  have hh0 : 0 ≤ h := by
    rw [hh]
    exact div_nonneg (mul_nonneg (Nat.cast_nonneg _) hq0) (by norm_num)
  have hfl : (Int.floor h).toNat < (sortedAsc xs).length := by
    rw [hlen]
    have h1 : Int.floor h ≤ ((xs.length - 1 : ℕ) : ℤ) := by
      have := Int.floor_le_floor hM
      rwa [Int.floor_natCast] at this
    exact lt_of_le_of_lt (Int.toNat_le.mpr h1) (Nat.sub_lt hm one_pos)
  have hcl : (Int.ceil h).toNat < (sortedAsc xs).length := by
    rw [hlen]
    have h1 : Int.ceil h ≤ ((xs.length - 1 : ℕ) : ℤ) := by
      have := Int.ceil_le_ceil hM
      rwa [Int.ceil_natCast] at this
    exact lt_of_le_of_lt (Int.toNat_le.mpr h1) (Nat.sub_lt hm one_pos)
  have ht0 : 0 ≤ h - (Int.floor h : ℚ) := sub_nonneg.mpr (Int.floor_le h)
  have ht1 : h - (Int.floor h : ℚ) ≤ 1 := by
    have := Int.lt_floor_add_one h
    linarith
  exact interp_ge hfl hcl hcs ht0 ht1

theorem exists_mem_le_npPercentile {xs : List ℚ} {q : ℚ} (hne : xs ≠ [])
    (hq0 : 0 ≤ q) (hq1 : q ≤ 100) :
    ∃ x ∈ xs, x ≤ npPercentile xs q := by
  have hsne : sortedAsc xs ≠ [] := by
    intro h0
    apply hne
    have := (sortedAsc_perm xs).length_eq
    rw [h0] at this
    exact List.length_eq_zero.mp this.symm
  obtain ⟨a, t, hat⟩ := List.exists_cons_of_ne_nil hsne
  have hsort := sortedAsc_sorted xs
  have hmem : a ∈ xs := (sortedAsc_perm xs).mem_iff.mp (hat ▸ List.mem_cons_self a t)
  refine ⟨a, hmem, ?_⟩
  apply le_npPercentile_of_forall_le hne hq0 hq1
  intro x hx
  have hxs : x ∈ sortedAsc xs := (sortedAsc_perm xs).mem_iff.mpr hx
  rw [hat] at hxs hsort
  rcases List.mem_cons.mp hxs with h1 | h1
  · exact h1 ▸ le_refl a
  · exact (List.sorted_cons.mp hsort).1 x h1

theorem listMean_le_of_forall_le {xs : List ℚ} {c : ℚ} (hne : xs ≠ [])
    (hc : ∀ x ∈ xs, x ≤ c) : listMean xs ≤ c := by
  have hm : 0 < xs.length := List.length_pos.mpr hne
  have hsum : xs.sum ≤ xs.length • c := List.sum_le_card_nsmul xs c hc
  rw [nsmul_eq_mul] at hsum
  rw [listMean, div_le_iff₀ (by exact_mod_cast hm)]
  linarith [hsum]

/-! ## Claims C2, C6, C10: the VaR computation -/

/-- Claim C2 (confirmed): for every confidence in (0,1), every weight vector,
and every non-empty return series whose (1-confidence) empirical percentile
of the currency-scaled portfolio returns is negative (losses exist in the
tail), `calculate_var` succeeds and its historical VaR and CVaR outputs
satisfy `CVaR ≥ historicalVaR ≥ 0`; the CVaR is the negative mean of the
samples at or below the same percentile threshold used for the historical
VaR, which is exactly how `cvarTail` is defined. -/
theorem C2_cvar_dominates_var {N : ℕ} (w : Fin N → ℚ) (R : List (Fin N → ℚ))
    (conf : ℚ) (h0 : 0 < conf) (h1 : conf < 1) (hne : R ≠ [])
    (hloss : varThreshold w R conf < 0) :
    ∃ vh cv, calculate_varE w R conf = some (vh, cv) ∧ 0 ≤ vh ∧ vh ≤ cv := by
  have hq0 : 0 ≤ (1 - conf) * 100 := by nlinarith
  have hq1 : (1 - conf) * 100 ≤ 100 := by nlinarith
  have hpd : port_dollar w R ≠ [] := by
    simp only [port_dollar, ne_eq, List.map_eq_nil_iff]
    exact hne
  refine ⟨-(varThreshold w R conf), -(listMean (cvarTail w R conf)), ?_, ?_, ?_⟩
  · simp only [calculate_varE]
    rw [if_neg]
    push_neg
    constructor <;> linarith
  · linarith
  · have htail : cvarTail w R conf ≠ [] := by
      obtain ⟨x, hx, hxle⟩ := exists_mem_le_npPercentile hpd hq0 hq1
      intro hemp
      have hmem : x ∈ cvarTail w R conf := by
        rw [cvarTail, List.mem_filter]
        exact ⟨hx, by simpa using hxle⟩
      rw [hemp] at hmem
      cases hmem
    have hall : ∀ x ∈ cvarTail w R conf, x ≤ varThreshold w R conf := by
      intro x hx
      have := (List.mem_filter.mp hx).2
      simpa using this
    have := listMean_le_of_forall_le htail hall
    linarith

/-- Claim C2 witness: a concrete one-asset, three-period instance with a
negative tail threshold, on which the theorem's hypotheses hold and so do the
conclusions. -/
theorem C2_cvar_dominates_var_witness :
    (0 : ℚ) < 99 / 100 ∧ (99 : ℚ) / 100 < 1 ∧
      ([(fun _ => -(1 / 10)), (fun _ => 1 / 10), (fun _ => 1 / 5)] :
        List (Fin 1 → ℚ)) ≠ [] ∧
      varThreshold (fun _ : Fin 1 => (1 : ℚ))
        [(fun _ => -(1 / 10)), (fun _ => 1 / 10), (fun _ => 1 / 5)] (99 / 100) < 0 ∧
      ∃ vh cv,
        calculate_varE (fun _ : Fin 1 => (1 : ℚ))
          [(fun _ => -(1 / 10)), (fun _ => 1 / 10), (fun _ => 1 / 5)] (99 / 100) =
            some (vh, cv) ∧ 0 ≤ vh ∧ vh ≤ cv := by
  have hceil : Int.ceil ((1 : ℚ) / 50) = 1 := by
    rw [Int.ceil_eq_iff]
    norm_num
  have hthr : varThreshold (fun _ : Fin 1 => (1 : ℚ))
      [(fun _ => -(1 / 10)), (fun _ => 1 / 10), (fun _ => 1 / 5)] (99 / 100) < 0 := by
    norm_num [varThreshold, npPercentile, sortedAsc, port_dollar, dotQ, AUM_Q,
      List.insertionSort, List.orderedInsert, Fin.sum_univ_one, List.getD, hceil]
  refine ⟨by norm_num, by norm_num, by simp, hthr, ?_⟩
  exact C2_cvar_dominates_var _ _ _ (by norm_num) (by norm_num) (by simp) hthr

/-- Claim C10 (confirmed): for every non-empty return series, weight vector
and confidence in (0,1), the tail used for CVaR (the currency-scaled samples
at or below the empirical percentile threshold) is non-empty, so the CVaR is
the mean of a non-empty sample. -/
theorem C10_cvar_tail_nonempty {N : ℕ} (w : Fin N → ℚ) (R : List (Fin N → ℚ))
    (conf : ℚ) (hne : R ≠ []) (h0 : 0 < conf) (h1 : conf < 1) :
    cvarTail w R conf ≠ [] := by
  have hq0 : 0 ≤ (1 - conf) * 100 := by nlinarith
  have hq1 : (1 - conf) * 100 ≤ 100 := by nlinarith
  have hpd : port_dollar w R ≠ [] := by
    simp only [port_dollar, ne_eq, List.map_eq_nil_iff]
    exact hne
  obtain ⟨x, hx, hxle⟩ := exists_mem_le_npPercentile hpd hq0 hq1
  intro hemp
  have hmem : x ∈ cvarTail w R conf := by
    rw [cvarTail, List.mem_filter]
    exact ⟨hx, by simpa using hxle⟩
  rw [hemp] at hmem
  cases hmem

/-- Claim C10 witness: a concrete one-asset, two-period series at confidence
one half; the tail is non-empty. -/
theorem C10_cvar_tail_nonempty_witness :
    ([(fun _ => -(1 / 100)), (fun _ => 1 / 100)] : List (Fin 1 → ℚ)) ≠ [] ∧
      (0 : ℚ) < 1 / 2 ∧ (1 : ℚ) / 2 < 1 ∧
      cvarTail (fun _ : Fin 1 => (1 : ℚ))
        [(fun _ => -(1 / 100)), (fun _ => 1 / 100)] (1 / 2) ≠ [] :=
  ⟨by simp, by norm_num, by norm_num,
    C10_cvar_tail_nonempty _ _ _ (by simp) (by norm_num) (by norm_num)⟩

/-- Claim C6 counterexample: confidence 1 lies outside the open interval
(0,1), yet `calculate_var` does not fail: it silently computes the 0th
percentile (the sample minimum) and returns concrete VaR and CVaR values.
No InvalidConfiguration check exists in the source. -/
theorem C6_counterexample :
    calculate_varE (fun _ : Fin 1 => (1 : ℚ)) [fun _ => 1 / 100] 1 =
      some (-5000000, -5000000) := by
  norm_num [calculate_varE, varThreshold, cvarTail, port_dollar, dotQ, AUM_Q,
    npPercentile, sortedAsc, listMean, List.insertionSort, List.orderedInsert,
    Fin.sum_univ_one, List.getD, List.filter]

/-- Claim C6 amended: `calculate_var` performs no confidence validation of
its own.  The only failure is the ValueError `np.percentile` raises when the
requested percentile `(1-confidence)*100` falls outside [0,100]: the call
fails exactly when confidence is negative or exceeds 1, while the boundary
values 0 and 1 (also outside the open interval (0,1)) are accepted silently
and no value is ever clamped. -/
theorem C6_amended_percentile_range_error {N : ℕ} (w : Fin N → ℚ)
    (R : List (Fin N → ℚ)) (conf : ℚ) :
    calculate_varE w R conf = none ↔ conf < 0 ∨ 1 < conf := by
  simp only [calculate_varE]
  by_cases h : (1 - conf) * 100 < 0 ∨ 100 < (1 - conf) * 100
  · rw [if_pos h]
    simp only [true_iff]
    rcases h with h | h
    · right; nlinarith
    · left; nlinarith
  · rw [if_neg h]
    push_neg at h
    simp only [reduceCtorEq, false_iff, not_or, not_lt]
    constructor <;> nlinarith [h.1, h.2]

/-! ## Claims C3 and C4: `portfolio_metrics` -/

/-- Claim C3 (confirmed): for every weight vector and return series with at
least two periods, `portfolio_metrics` returns annualizedReturn = (mean of
the per-period portfolio returns weights dot returnRow) times 252,
annualizedVolatility = (sample standard deviation of those returns) times
sqrt 252, and, the volatility being nonzero, sharpeRatio =
(annualizedReturn - riskFreeRate) / annualizedVolatility.  The right-hand
sides are the specification-side definitions. -/
theorem C3_portfolio_metrics_formulas {N : ℕ} (w : Fin N → ℝ) (R : List (Fin N → ℝ))
    (_hT : 2 ≤ R.length) (hvol : specAnnualizedVol w R ≠ 0) :
    portfolio_metricsR w R =
      (specAnnualizedReturn w R, specAnnualizedVol w R,
        NpFloat.num ((specAnnualizedReturn w R - RISK_FREE_R) / specAnnualizedVol w R)) := by
  have hps : specPortReturn w = fun r => ∑ i, w i * r i := rfl
  have hcast : ((TRADE_DAYS : ℕ) : ℝ) = 252 := by norm_num [TRADE_DAYS]
  have hret : meanR (port_returnsR w R) * (TRADE_DAYS : ℝ) = specAnnualizedReturn w R := by
    simp only [specAnnualizedReturn, specMean, hps, meanR, port_returnsR, hcast]
  have hvolEq : stdR (port_returnsR w R) * Real.sqrt (TRADE_DAYS : ℝ) =
      specAnnualizedVol w R := by
    simp only [specAnnualizedVol, specSampleStd, specSampleVariance, specMean,
      hps, stdR, meanR, port_returnsR, hcast]
  have hvol2 : stdR (port_returnsR w R) * Real.sqrt (TRADE_DAYS : ℝ) ≠ 0 := by
    rwa [hvolEq]
  simp only [portfolio_metricsR, npDiv, if_neg hvol2, hret, hvolEq]
  rw [if_neg hvol]

/-- Claim C3 witness: the one-asset series with returns 0 and 2 under unit
weight has nonzero annualized volatility sqrt 2 * sqrt 252, and the metric
formulas hold on it. -/
theorem C3_portfolio_metrics_formulas_witness :
    2 ≤ ([(fun _ => 0), (fun _ => 2)] : List (Fin 1 → ℝ)).length ∧
      specAnnualizedVol (fun _ : Fin 1 => (1 : ℝ)) [(fun _ => 0), (fun _ => 2)] ≠ 0 ∧
      portfolio_metricsR (fun _ : Fin 1 => (1 : ℝ)) [(fun _ => 0), (fun _ => 2)] =
        (specAnnualizedReturn (fun _ : Fin 1 => (1 : ℝ)) [(fun _ => 0), (fun _ => 2)],
          specAnnualizedVol (fun _ : Fin 1 => (1 : ℝ)) [(fun _ => 0), (fun _ => 2)],
          NpFloat.num
            ((specAnnualizedReturn (fun _ : Fin 1 => (1 : ℝ)) [(fun _ => 0), (fun _ => 2)] -
                RISK_FREE_R) /
              specAnnualizedVol (fun _ : Fin 1 => (1 : ℝ)) [(fun _ => 0), (fun _ => 2)])) := by
  have hval : specAnnualizedVol (fun _ : Fin 1 => (1 : ℝ)) [(fun _ => 0), (fun _ => 2)] =
      Real.sqrt 2 * Real.sqrt 252 := by
    norm_num [specAnnualizedVol, specSampleStd, specSampleVariance, specMean,
      specPortReturn, Fin.sum_univ_one]
  have hvol : specAnnualizedVol (fun _ : Fin 1 => (1 : ℝ)) [(fun _ => 0), (fun _ => 2)] ≠ 0 := by
    rw [hval]
    have h2 : Real.sqrt 2 ≠ 0 := by
      rw [Real.sqrt_ne_zero']
      norm_num
    have h252 : Real.sqrt 252 ≠ 0 := by
      rw [Real.sqrt_ne_zero']
      norm_num
    exact mul_ne_zero h2 h252
  exact ⟨by norm_num, hvol,
    C3_portfolio_metrics_formulas _ _ (by norm_num) hvol⟩

/-- Claim C4 (confirmed): whenever the annualized volatility computed by
`portfolio_metrics` is zero, the function still returns (no exception: the
division is a total numpy operation with warnings suppressed) and the Sharpe
component is one of the non-finite sentinels nan / inf / -inf — it is not
equal to `NpFloat.num x` for any real `x`, in particular not a silent
zero. -/
theorem C4_zero_vol_sharpe_undefined {N : ℕ} (w : Fin N → ℝ) (R : List (Fin N → ℝ))
    (hvol : (portfolio_metricsR w R).2.1 = 0) :
    ∀ x : ℝ, (portfolio_metricsR w R).2.2 ≠ NpFloat.num x := by
  intro x
  simp only [portfolio_metricsR] at hvol ⊢
  rw [npDiv, if_pos hvol]
  split_ifs <;> simp

/-- Claim C4 witness: a constant (zero) return series yields annualized
volatility zero, and the Sharpe component is a non-finite sentinel. -/
theorem C4_zero_vol_sharpe_undefined_witness :
    (portfolio_metricsR (fun _ : Fin 1 => (1 : ℝ)) [(fun _ => 0), (fun _ => 0)]).2.1 = 0 ∧
      ∀ x : ℝ,
        (portfolio_metricsR (fun _ : Fin 1 => (1 : ℝ)) [(fun _ => 0), (fun _ => 0)]).2.2 ≠
          NpFloat.num x := by
  have hvol :
      (portfolio_metricsR (fun _ : Fin 1 => (1 : ℝ)) [(fun _ => 0), (fun _ => 0)]).2.1 = 0 := by
    norm_num [portfolio_metricsR, stdR, meanR, port_returnsR, Fin.sum_univ_one,
      Real.sqrt_zero]
  exact ⟨hvol, C4_zero_vol_sharpe_undefined _ _ hvol⟩

/-! ## Claims C7 and C9: `monte_carlo` -/

/-- Claim C7 (confirmed): for every weight vector, return series, positive
trials count and horizon, the Monte Carlo simulator returns exactly `n_sim`
terminal values, the k-th being `AUM * exp x_k` where `x_k` is the k-th draw
of a normal variate with mean `(mu - 0.5 sigma^2) * horizon` and standard
deviation `sigma * sqrt horizon` (that is, `mean + sd * z k` for the
standard-normal stream `z`), `mu` and `sigma` being the sample mean and
sample standard deviation of the portfolio's per-period returns. -/
theorem C7_monte_carlo_model {N : ℕ} (w : Fin N → ℝ) (R : List (Fin N → ℝ))
    (n_sim : ℕ) (horizon : ℝ) (z : Fin n_sim → ℝ) (_hn : 0 < n_sim) :
    (monte_carloR AUM_R w R n_sim horizon z).length = n_sim ∧
      monte_carloR AUM_R w R n_sim horizon z =
        List.ofFn (fun k =>
          AUM_R * Real.exp (specLogMean w R horizon + specLogStd w R horizon * z k)) := by
  have hps : specPortReturn w = fun r => ∑ i, w i * r i := rfl
  constructor
  · simp [monte_carloR]
  · simp only [monte_carloR, specLogMean, specLogStd, specMu, specSigma,
      specSampleStd, specSampleVariance, specMean, hps, stdR, meanR,
      port_returnsR]

/-- Claim C7 witness: two trials on a concrete one-asset series. -/
theorem C7_monte_carlo_model_witness :
    0 < 2 ∧
      ((monte_carloR AUM_R (fun _ : Fin 1 => (1 : ℝ)) [fun _ => 1 / 100] 2 252
            (fun _ => 0)).length = 2 ∧
        monte_carloR AUM_R (fun _ : Fin 1 => (1 : ℝ)) [fun _ => 1 / 100] 2 252
            (fun _ => 0) =
          List.ofFn (fun k : Fin 2 =>
            AUM_R * Real.exp
              (specLogMean (fun _ : Fin 1 => (1 : ℝ)) [fun _ => 1 / 100] 252 +
                specLogStd (fun _ : Fin 1 => (1 : ℝ)) [fun _ => 1 / 100] 252 *
                  (fun _ : Fin 2 => (0 : ℝ)) k))) :=
  ⟨by norm_num, C7_monte_carlo_model _ _ 2 252 _ (by norm_num)⟩

/-- Claim C9 (confirmed): for positive assets under management, every
terminal value produced by the Monte Carlo simulator is strictly positive,
being the product of the positive AUM with an exponential. -/
theorem C9_terminal_values_positive {N : ℕ} (aum : ℝ) (w : Fin N → ℝ)
    (R : List (Fin N → ℝ)) (n_sim : ℕ) (horizon : ℝ) (z : Fin n_sim → ℝ)
    (haum : 0 < aum) :
    ∀ x ∈ monte_carloR aum w R n_sim horizon z, 0 < x := by
  intro x hx
  simp only [monte_carloR, List.mem_ofFn] at hx
  obtain ⟨k, hk⟩ := hx
  rw [← hk]
  exact mul_pos haum (Real.exp_pos _)

/-- Claim C9 witness: the configured AUM is positive, and every terminal
value of a concrete three-trial run is positive. -/
theorem C9_terminal_values_positive_witness :
    0 < AUM_R ∧
      ∀ x ∈ monte_carloR AUM_R (fun _ : Fin 1 => (1 : ℝ)) [fun _ => 1 / 100] 3 252
          (fun _ => 0), 0 < x :=
  ⟨by norm_num [AUM_R],
    C9_terminal_values_positive _ _ _ 3 252 _ (by norm_num [AUM_R])⟩

/-! ## Claim C5: what happens on solver non-convergence -/

/-- Claim C5 counterexample: the claim says a non-converged solve is
reported through a `converged=false` flag on an `OptimizationResult` record
and that the caller performs the fallback substitution.  In the source
(line 169, `return result.x if result.success else w0`) the optimizer
returns a bare weight vector: the result of a failed solve is literally
identical to the result of a successful solve that produced the equal-weight
vector, so the returned value carries no convergence flag at all, and the
substitution happens inside the optimizer, not in the caller. -/
theorem C5_counterexample :
    optimize_scipy ⟨false, fun _ => 0⟩ = optimize_scipy ⟨true, w0⟩ ∧
      optimize_scipy ⟨false, fun _ => 0⟩ = w0 := by
  constructor <;> simp [optimize_scipy]

/-- Claim C5 amended: whenever the solver reports failure, the optimizer
itself silently returns the equal-weight start vector `w0 = ones(n)/n` as a
bare weight array (no flag, no exception, no caller-side substitution). -/
theorem C5_amended_silent_equal_weight_substitute (res : SolveResult nAssets)
    (hfail : res.success = false) : optimize_scipy res = w0 := by
  simp [optimize_scipy, hfail]

/-- Claim C5 amended witness: a concrete failed solve returns `w0`. -/
theorem C5_amended_silent_equal_weight_substitute_witness :
    ((⟨false, fun _ => (1 : ℚ)⟩ : SolveResult nAssets)).success = false ∧
      optimize_scipy ⟨false, fun _ => (1 : ℚ)⟩ = w0 :=
  ⟨rfl, C5_amended_silent_equal_weight_substitute ⟨false, fun _ => (1 : ℚ)⟩ rfl⟩

/-! ## Claim C8: purity of the risk-metrics engine -/

/-- Evaluation of `calculate_beta` on a two-period, one-asset instance when
the global generator happens to return zeros. -/
theorem betaEvalNoiseZero :
    calculate_betaQ (fun _ : Fin 1 => (1 : ℚ)) [fun _ => 0, fun _ => 1]
      (fun _ => 0) = 20 / 17 := by
  norm_num [calculate_betaQ, sampleCov2, bmReturns, rowMeanQ, listMean, dotQ,
    List.enum, List.enumFrom, Fin.sum_univ_one]

/-- Evaluation of `calculate_beta` on the same (weights, returns) pair when
the global generator returns 0 then 3/20. -/
theorem betaEvalNoiseShift :
    calculate_betaQ (fun _ : Fin 1 => (1 : ℚ)) [fun _ => 0, fun _ => 1]
      (fun t => if t = 0 then 0 else 3 / 20) = 1 := by
  norm_num [calculate_betaQ, sampleCov2, bmReturns, rowMeanQ, listMean, dotQ,
    List.enum, List.enumFrom, Fin.sum_univ_one]

/-- Claim C8 counterexample: `calculate_beta` is not a deterministic
function of its explicit (weights, ReturnSeries) inputs: it adds draws from
numpy's implicit global generator to the simulated benchmark (source line
140), and two invocations on identical inputs that consume different draw
streams return different betas (20/17 versus 1 here). -/
theorem C8_counterexample :
    calculate_betaQ (fun _ : Fin 1 => (1 : ℚ)) [fun _ => 0, fun _ => 1]
        (fun _ => 0) ≠
      calculate_betaQ (fun _ : Fin 1 => (1 : ℚ)) [fun _ => 0, fun _ => 1]
        (fun t => if t = 0 then 0 else 3 / 20) := by
  rw [betaEvalNoiseZero, betaEvalNoiseShift]
  norm_num

/-- Claim C8 amended: the beta computation is a deterministic function of
(weights, ReturnSeries) together with the `T` values it draws from the
implicit global generator — draws agreeing on the first `T` positions give
identical betas — but the (weights, ReturnSeries) pair alone does not
determine the output: there are draw streams under which identical inputs
yield different betas. -/
theorem C8_amended_beta_determined_with_draws :
    (∀ (N : ℕ) (w : Fin N → ℚ) (R : List (Fin N → ℚ)) (noise1 noise2 : ℕ → ℚ),
        (∀ t, t < R.length → noise1 t = noise2 t) →
          calculate_betaQ w R noise1 = calculate_betaQ w R noise2) ∧
      ∃ (w : Fin 1 → ℚ) (R : List (Fin 1 → ℚ)) (noise1 noise2 : ℕ → ℚ),
        calculate_betaQ w R noise1 ≠ calculate_betaQ w R noise2 := by
  constructor
  · intro N w R noise1 noise2 hag
    have hbm : bmReturns R noise1 = bmReturns R noise2 := by
      simp only [bmReturns]
      apply List.map_congr_left
      intro p hp
      obtain ⟨t, r⟩ := p
      rw [List.enum_eq_zip_range] at hp
      have hmem := List.of_mem_zip hp
      have hlt : t < R.length := List.mem_range.mp hmem.1
      dsimp only
      rw [hag t hlt]
    simp only [calculate_betaQ, hbm]
  · refine ⟨fun _ => 1, [fun _ => 0, fun _ => 1], fun _ => 0,
      fun t => if t = 0 then 0 else 3 / 20, ?_⟩
    rw [betaEvalNoiseZero, betaEvalNoiseShift]
    norm_num

/-- Claim C8 amended witness: two draw streams that agree on the first two
positions give the same beta on a two-period series. -/
theorem C8_amended_beta_determined_with_draws_witness :
    calculate_betaQ (fun _ : Fin 1 => (1 : ℚ)) [fun _ => 0, fun _ => 1]
        (fun _ => 0) =
      calculate_betaQ (fun _ : Fin 1 => (1 : ℚ)) [fun _ => 0, fun _ => 1]
        (fun t => if t < 2 then 0 else 7) := by
  apply C8_amended_beta_determined_with_draws.1
  intro t ht
  have h2 : t < 2 := by simpa using ht
  simp [h2]

/-! ## Claim C1: feasibility of the optimizer's returned weights -/

theorem clipBounds_lower (x : ℚ) : 1 / 50 ≤ clipBounds x := by
  rw [clipBounds]
  exact le_min (le_max_right x (1 / 50)) (by norm_num)

theorem clipRenorm_sum {N : ℕ} (hN : 0 < N) (w : Fin N → ℚ) :
    (∑ i, clipRenorm w i) = 1 := by
  have hpos : 0 < ∑ j, clipBounds (w j) := by
    have h1 : (0 : ℚ) < ∑ _j : Fin N, (1 / 50 : ℚ) := by
      rw [Finset.sum_const, Finset.card_univ, Fintype.card_fin, nsmul_eq_mul]
      have : (0 : ℚ) < (N : ℚ) := by exact_mod_cast hN
      positivity
    exact lt_of_lt_of_le h1 (Finset.sum_le_sum fun i _ => clipBounds_lower (w i))
  simp only [clipRenorm]
  rw [← Finset.sum_div]
  exact div_self (ne_of_gt hpos)

/-- Claim C1 amended: what actually holds of the three paths.  The
non-convergence substitute (the equal-weight vector) sums to 1 and respects
the bounds; the no-solver fallback path always sums exactly to 1 (the final
step divides by the clipped sum), but — as the counterexample shows — its
renormalization can push individual components outside [0.02, 0.25].  (The
converged path returns the external solver's `result.x` entirely
unvalidated.) -/
theorem C1_amended_feasibility :
    (∀ res : SolveResult nAssets, res.success = false →
        (∑ i, optimize_scipy res i) = 1 ∧
          ∀ i, 1 / 50 ≤ optimize_scipy res i ∧ optimize_scipy res i ≤ 1 / 4) ∧
      ∀ R : List (Fin nAssets → ℚ), (∑ i, optimize_fallback R i) = 1 := by
  constructor
  · intro res hfail
    have hw : optimize_scipy res = w0 := by simp [optimize_scipy, hfail]
    rw [hw]
    constructor
    · simp only [w0, Finset.sum_const, Finset.card_univ, Fintype.card_fin,
        nsmul_eq_mul, nAssets_eq_ten]
      norm_num
    · intro i
      simp only [w0, nAssets_eq_ten]
      constructor <;> norm_num
  · intro R
    exact clipRenorm_sum (by norm_num [nAssets_eq_ten]) _

/-- Claim C1 amended witness: the substitute path at a concrete failed solve
sums to 1, and the fallback path on the empty series sums to 1. -/
theorem C1_amended_feasibility_witness :
    ((⟨false, fun _ => 0⟩ : SolveResult nAssets)).success = false ∧
      (∑ i, optimize_scipy ⟨false, fun _ => 0⟩ i) = 1 ∧
      (∑ i, optimize_fallback [] i) = 1 :=
  ⟨rfl, (C1_amended_feasibility.1 ⟨false, fun _ => 0⟩ rfl).1,
    C1_amended_feasibility.2 []⟩

theorem npInv_eq_of_left_inv {N : ℕ} (A B : Matrix (Fin N) (Fin N) ℚ)
    (h : B * A = 1) : npInv A = B := by
  have hdet : A.det ≠ 0 := by
    intro h0
    have hone : (B * A).det = 1 := by rw [h, Matrix.det_one]
    rw [Matrix.det_mul, h0, mul_zero] at hone
    exact zero_ne_one hone
  have hright : A * npInv A = 1 := by
    rw [npInv, Matrix.mul_smul, Matrix.mul_adjugate, smul_smul,
      inv_mul_cancel₀ hdet, one_smul]
  calc npInv A = 1 * npInv A := (Matrix.one_mul _).symm
    _ = B * A * npInv A := by rw [h]
    _ = B * (A * npInv A) := Matrix.mul_assoc _ _ _
    _ = B * 1 := by rw [hright]
    _ = B := Matrix.mul_one _

theorem npInv_diagonal {N : ℕ} (v : Fin N → ℚ) (hv : ∀ i, v i ≠ 0) :
    npInv (Matrix.diagonal v) = Matrix.diagonal (fun i => (v i)⁻¹) := by
  apply npInv_eq_of_left_inv
  rw [Matrix.diagonal_mul_diagonal]
  have hfun : (fun i => (v i)⁻¹ * v i) = fun _ => (1 : ℚ) := by
    funext i
    exact inv_mul_cancel₀ (hv i)
  rw [hfun, Matrix.diagonal_one]

theorem diagonal_row_sum {N : ℕ} (u : Fin N → ℚ) (i : Fin N) :
    (∑ j, Matrix.diagonal u i j) = u i := by
  simp [Matrix.diagonal]

theorem minvarRaw_diagonal {N : ℕ} (v : Fin N → ℚ) (hv : ∀ i, v i ≠ 0) :
    minvarRaw (Matrix.diagonal v) = fun i => (v i)⁻¹ / (∑ k, (v k)⁻¹) := by
  funext i
  simp only [minvarRaw, npInv_diagonal v hv, diagonal_row_sum]

theorem regCov_Rstar : regCov Rstar = Matrix.diagonal dstar := by
  ext i j
  simp only [regCov, sampleCovM, colMeanQ, Rstar, rstarUp, rstarDown, dstar,
    Matrix.add_apply, Matrix.smul_apply, Matrix.of_apply, Matrix.one_apply,
    Matrix.diagonal_apply, List.map_cons, List.map_nil, List.sum_cons,
    List.sum_nil, List.length_cons, List.length_nil, TRADE_DAYS, smul_eq_mul]
  by_cases hi : i = 0 <;> by_cases hj : j = 0
  · subst hi
    subst hj
    norm_num
  · subst hi
    have hj2 : ¬((0 : Fin nAssets) = j) := fun h => hj h.symm
    simp [hj, hj2]
  · subst hj
    have hi2 : ¬((0 : Fin nAssets) = i) := fun h => hi h.symm
    simp [hi, hi2]
  · by_cases hij : i = j
    · subst hij
      simp [hi]
    · simp [hi, hj, hij]

/-- Claim C1 counterexample: on the concrete series `Rstar` the no-solver
fallback path of `optimize_portfolio` violates the lower bound: asset 0's
minimum-variance weight is tiny, the clip raises it to exactly 0.02, and the
final renormalization (dividing by a clipped sum greater than 1) pushes it
strictly below 0.02.  So the claim that every path returns components
inside [0.02, 0.25] is false. -/
theorem C1_counterexample : optimize_fallback Rstar 0 < 1 / 50 := by
  have hv : ∀ i, dstar i ≠ 0 := by
    intro i
    simp only [dstar]
    split_ifs <;> norm_num
  have h1 : optimize_fallback Rstar =
      clipRenorm (fun i => (dstar i)⁻¹ / (∑ k, (dstar k)⁻¹)) := by
    rw [optimize_fallback, regCov_Rstar, minvarRaw_diagonal dstar hv]
  rw [h1]
  show clipRenorm (fun i : Fin 10 => (dstar i)⁻¹ / (∑ k : Fin 10, (dstar k)⁻¹))
      (0 : Fin 10) < 1 / 50
  have hsum : (∑ k : Fin 10, (dstar k)⁻¹) = 100000000 / 50400000001 + 900000000 := by
    simp only [Fin.sum_univ_succ, Fin.sum_univ_zero, dstar, Fin.succ_ne_zero,
      if_true, if_false, ite_false, ite_true, reduceIte]
    norm_num
  simp only [clipRenorm, hsum]
  simp only [Fin.sum_univ_succ, Fin.sum_univ_zero, dstar, Fin.succ_ne_zero,
    reduceIte, ite_false, clipBounds]
  norm_num [min_def, max_def]

end PortfolioAnalysis
